import Mathlib

/-!
Verification development for the Googles-Maps-Scraper repository.

The repository is Python; we give a shallow embedding of the code that the
claims depend on: `scraper.py` (fetch_html, extract_email, smart_email_scrape,
Business, BusinessList, run_pipeline's contact-merge step, the category split),
`main.py` (the scroll loop, add_business, the review parsers, the category
split) and `mail_scraper.py` (fetch_html, extract_email_from_html).

Python strings are embedded as Lean `String`; the string methods the code uses
(`lower`, `strip`, `rstrip`, `lstrip`, `split`, `replace`, `title`,
`startswith`, `in`, `isdigit`) are implemented below over `String.data` with
structural (fuel-based) recursion so that every definition evaluates inside the
kernel.  ASCII semantics are used, which coincides with Python on the ASCII
inputs the scraper manipulates.

The network and the HTML parser (requests + BeautifulSoup) are external
capabilities; a fetched document is embedded as a `Page` (anchor hrefs in
document order, the visible text produced by `get_text(" ")`, and the raw
markup string), and the web is a function `String → Option Page` (None models
a request failure).  Fetching is observable through an explicit trace of the
URLs actually requested.
-/

/-! ## Python string primitives -/

def isPySpace (c : Char) : Bool :=
  c = ' ' || c = '\t' || c = '\n' || c = '\r' || c = '\x0b' || c = '\x0c'

/-- Python `s.lower()` (ASCII). -/
def pyLower (s : String) : String := String.mk (s.data.map Char.toLower)

/-- Python `s.strip()` (no argument: strip whitespace at both ends). -/
def pyStrip (s : String) : String :=
  String.mk (((s.data.dropWhile isPySpace).reverse.dropWhile isPySpace).reverse)

/-- Python `s.rstrip("/")`. -/
def pyRstripSlash (s : String) : String :=
  String.mk ((s.data.reverse.dropWhile (fun c => c = '/')).reverse)

/-- Python `s.lstrip(set)`: drop the longest leading run of characters drawn
from `set`. -/
def pyLstripSet (s : String) (set : String) : String :=
  String.mk (s.data.dropWhile (fun c => set.data.contains c))

/-- Python `s.startswith(pre)`. -/
def startsWithStr (s pre : String) : Bool := pre.data.isPrefixOf s.data

/-- Python `sub in s` (substring containment). -/
def containsSeq (sub : List Char) : List Char → Bool
  | [] => sub.isEmpty
  | c :: rest => sub.isPrefixOf (c :: rest) || containsSeq sub rest

def containsSub (s sub : String) : Bool := containsSeq sub.data s.data

/-- Python `s.split(sep)` for a non-empty separator, fuel-based so it reduces
in the kernel.  Leftmost, non-overlapping occurrences. -/
def splitSeqFuel (sep : List Char) : Nat → List Char → List (List Char)
  | _, [] => [[]]
  | 0, cs => [cs]
  | n + 1, c :: rest =>
    if sep ≠ [] ∧ sep.isPrefixOf (c :: rest) then
      [] :: splitSeqFuel sep n (rest.drop (sep.length - 1))
    else
      match splitSeqFuel sep n rest with
      | [] => [[c]]
      | s :: ss => (c :: s) :: ss

def pySplit (s sep : String) : List String :=
  (splitSeqFuel sep.data s.data.length s.data).map String.mk

/-- Python `s.replace(pat, repl)` (all occurrences), fuel-based. -/
def replaceSeqFuel (pat repl : List Char) : Nat → List Char → List Char
  | _, [] => []
  | 0, cs => cs
  | n + 1, c :: rest =>
    if pat ≠ [] ∧ pat.isPrefixOf (c :: rest) then
      repl ++ replaceSeqFuel pat repl n (rest.drop (pat.length - 1))
    else
      c :: replaceSeqFuel pat repl n rest

def pyReplace (s pat repl : String) : String :=
  String.mk (replaceSeqFuel pat.data repl.data s.data.length s.data)

/-- Python `s.replace('.', '', 1)`: remove only the first dot. -/
def removeFirstDot : List Char → List Char
  | [] => []
  | c :: rest => if c = '.' then rest else c :: removeFirstDot rest

/-- Python `s.split()` (no argument: split on whitespace runs, no empties). -/
def pySplitWsAux : Nat → List Char → List (List Char)
  | _, [] => []
  | 0, _ => []
  | n + 1, c :: rest =>
    if isPySpace c then pySplitWsAux n rest
    else
      (c :: rest.takeWhile (fun x => !isPySpace x)) ::
        pySplitWsAux n (rest.dropWhile (fun x => !isPySpace x))

def pySplitWs (s : String) : List String :=
  (pySplitWsAux s.data.length s.data).map String.mk

/-- Python `s.isdigit()` (ASCII digits; requires non-empty). -/
def pyIsDigit (s : String) : Bool := s.data ≠ [] && s.data.all Char.isDigit

/-- `int(s)` on a digit string. -/
def digitsToNat (s : String) : Nat :=
  s.data.foldl (fun n c => n * 10 + (c.toNat - 48)) 0

/-- Python `s.count(c)` for a single character. -/
def countChar (s : String) (c : Char) : Nat := (s.data.filter (fun x => x = c)).length

/-- Python `s.title()` (ASCII): uppercase the first letter of every run of
letters, lowercase the rest. -/
def pyTitleAux : Bool → List Char → List Char
  | _, [] => []
  | prevCased, c :: rest =>
    let cased := c.isAlpha
    (if cased then (if prevCased then c.toLower else c.toUpper) else c) ::
      pyTitleAux cased rest

def pyTitle (s : String) : String := String.mk (pyTitleAux false s.data)

/-! ## The email regular expression

`EMAIL_REGEX = [a-zA-Z0-9._%+-]+@[a-zA-Z0-9.-]+\.[a-zA-Z]{2,}` with
`re.search` semantics: leftmost starting position, greedy quantifiers.  The
local part never backtracks ('@' is not a local character); the domain part
backtracks from the longest run, which amounts to picking the rightmost dot of
the domain run that is followed by at least two letters. -/

def isLocalChar (c : Char) : Bool :=
  c.isAlphanum || c = '.' || c = '_' || c = '%' || c = '+' || c = '-'

def isDomainChar (c : Char) : Bool := c.isAlphanum || c = '.' || c = '-'

/-- Try the split `dom = A ++ "." ++ T` with `A = dom.take j`, `dom[j] = '.'`
and `T` the greedy alphabetic run after position `j`, scanning `j` downward
(greedy first sub-expression).  Returns the matched domain portion. -/
def findDomainSplit (dom : List Char) : Nat → Option (List Char)
  | 0 => none
  | j + 1 =>
    match dom.drop (j + 1) with
    | '.' :: afterDot =>
      let t := afterDot.takeWhile Char.isAlpha
      if 2 ≤ t.length then some (dom.take (j + 1) ++ '.' :: t)
      else findDomainSplit dom j
    | _ => findDomainSplit dom j

/-- Match `EMAIL_REGEX` anchored at the head of `cs`; returns the matched
characters. -/
def matchEmailAt (cs : List Char) : Option (List Char) :=
  let loc := cs.takeWhile isLocalChar
  if loc.isEmpty then none
  else
    match cs.dropWhile isLocalChar with
    | '@' :: rest =>
      let dom := rest.takeWhile isDomainChar
      match findDomainSplit dom dom.length with
      | some d => some (loc ++ '@' :: d)
      | none => none
    | _ => none

def searchEmailList : List Char → Option (List Char)
  | [] => none
  | c :: rest =>
    match matchEmailAt (c :: rest) with
    | some m => some m
    | none => searchEmailList rest

/-- `EMAIL_REGEX.search(s)`, returning `group(0)`. -/
def searchEmail (s : String) : Option String :=
  (searchEmailList s.data).map String.mk

/-! ## Fetched documents and URL normalization

`scraper.py` lines 105-121 and `mail_scraper.py` lines 13-35. -/

/-- One fetched, parsed document: the anchor `href` values in document order,
the visible text (`soup.get_text(" ")`), and the raw markup string. -/
structure Page where
  anchors : List String
  text : String
  raw : String
deriving DecidableEq

/-- `scraper.py` line 105: the candidate path list (defined in the source but,
as proved below, never consulted by `smart_email_scrape`). -/
def EMAIL_PATHS : List String :=
  ["", "contact", "contacto", "contacte", "contacts",
   "about", "about-us", "info", "information"]

/-- URL normalization performed by `scraper.py`'s `fetch_html` (lines
116-117): `if not url or not url.startswith("http"): url = "https://" +
url.lstrip("https:/")`. -/
def normFetchUrl (url : String) : String :=
  if url = "" ∨ startsWithStr url "http" = false then
    "https://" ++ pyLstripSet url "https:/"
  else url

/-- URL normalization performed by `mail_scraper.py`'s `fetch_html` (lines
17-18): `if not url.startswith("http"): url = "https://" + url`. -/
def msNormUrl (url : String) : String :=
  if startsWithStr url "http" = false then "https://" ++ url else url

/-- `scraper.py`'s `fetch_html`: normalize, then perform the request (`web`
models `requests.get` composed with the HTML parser; `none` is a raised
exception, returned as `None`). -/
def fetch_html (web : String → Option Page) (url : String) : Option Page :=
  web (normFetchUrl url)

/-! ## Email extraction

`scraper.py` lines 124-137 (`extract_email`) and `mail_scraper.py` lines 38-62
(`extract_email_from_html`). -/

/-- The candidate address a mailto anchor yields in `extract_email`:
`h = href.lower()`, `email = h.replace("mailto:", "").split("?")[0]`. -/
def mailtoCandidate (href : String) : String :=
  ((pySplit (pyReplace (pyLower href) "mailto:" "") "?").headD "")

/-- An anchor that `extract_email` accepts: lowered href starts with
`mailto:` and the candidate passes `EMAIL_REGEX.search`. -/
def mailtoHit (href : String) : Prop :=
  startsWithStr (pyLower href) "mailto:" = true ∧
    (searchEmail (mailtoCandidate href)).isSome = true

instance (href : String) : Decidable (mailtoHit href) := by
  unfold mailtoHit; infer_instance

/-- The anchor walk of `extract_email` (lines 128-133), falling back to the
raw regex over the visible text (line 136). -/
def mailtoScan : List String → String → Option String
  | [], text => searchEmail text
  | a :: rest, text =>
    let h := pyLower a
    if startsWithStr h "mailto:" = true then
      let email := (pySplit (pyReplace h "mailto:" "") "?").headD ""
      if (searchEmail email).isSome = true then some email
      else mailtoScan rest text
    else mailtoScan rest text

/-- `scraper.py`'s `extract_email`. -/
def extract_email (p : Page) : Option String := mailtoScan p.anchors p.text

/-- The candidate address of `extract_email_from_html`'s mailto scan:
`href.lower()` then `replace("mailto:", "").split("?")[0]`; note the
containment test (`"mailto:" in href`) and the absence of a regex check. -/
def msCandidate (href : String) : String :=
  ((pySplit (pyReplace (pyLower href) "mailto:" "") "?").headD "")

/-- `mail_scraper.py`'s `extract_email_from_html`: first anchor whose lowered
href *contains* `mailto:` wins unconditionally; otherwise regex over text. -/
def msMailtoScan : List String → String → Option String
  | [], text => searchEmail text
  | a :: rest, text =>
    if containsSub (pyLower a) "mailto:" = true then some (msCandidate a)
    else msMailtoScan rest text

def extract_email_from_html (p : Page) : Option String :=
  msMailtoScan p.anchors p.text

/-! ## The contact enricher

`scraper.py` lines 140-231 (`smart_email_scrape`).  The returned `result`
dict is embedded as `ContactResult`; the list of URLs actually requested is
returned alongside as an explicit fetch trace. -/

structure ContactResult where
  email : String := ""
  email_source : String := ""
  instagram_username : String := ""
  instagram_url : String := ""
  whatsapp_number : String := ""
  facebook_url : String := ""
  tiktok_username : String := ""
  tiktok_url : String := ""
  linkedin_url : String := ""
deriving DecidableEq

def emptyContact : ContactResult := {}

/-- Leftmost `re.search` of `lit` followed by a non-empty greedy run of
characters satisfying `p` (the shape of the Instagram/TikTok group regexes:
the group needs at least one character, so the scan backtracks to later
occurrences of the literal when the run is empty). -/
def findAfterLit (lit : List Char) (p : Char → Bool) : List Char → Option (List Char)
  | [] => none
  | c :: rest =>
    if lit.isPrefixOf (c :: rest) then
      let run := ((c :: rest).drop lit.length).takeWhile p
      if run.isEmpty then findAfterLit lit p rest else some run
    else findAfterLit lit p rest

/-- Character class `[a-zA-Z0-9._]` of the Instagram/TikTok username groups. -/
def isHandleChar (c : Char) : Bool := c.isAlphanum || c = '.' || c = '_'

/-- `re.search(r"instagram\.com/([a-zA-Z0-9._]+)", href)`, group 1. -/
def igUserOf (href : String) : Option String :=
  (findAfterLit "instagram.com/".data isHandleChar href.data).map String.mk

/-- `re.search(r"tiktok\.com/@([a-zA-Z0-9._]+)", href)`, group 1. -/
def ttUserOf (href : String) : Option String :=
  (findAfterLit "tiktok.com/@".data isHandleChar href.data).map String.mk

/-- `re.search(r"wa\.me/(\d+)|phone=(\d+)", href)`: at each position try the
first alternative, then the second; `m.group(1) or m.group(2)`. -/
def waPhoneOf : List Char → Option String
  | [] => none
  | c :: rest =>
    let cs := c :: rest
    if ("wa.me/".data).isPrefixOf cs ∧ ((cs.drop 6).takeWhile Char.isDigit) ≠ [] then
      some (String.mk ((cs.drop 6).takeWhile Char.isDigit))
    else if ("phone=".data).isPrefixOf cs ∧ ((cs.drop 6).takeWhile Char.isDigit) ≠ [] then
      some (String.mk ((cs.drop 6).takeWhile Char.isDigit))
    else waPhoneOf rest

/-- Validation applied to an Instagram username (line 185). -/
def validIg (uname : String) : Prop :=
  uname ≠ "" ∧ uname ≠ "p" ∧
    startsWithStr uname "explore" = false ∧
    startsWithStr uname "accounts" = false ∧
    startsWithStr uname "reel" = false ∧
    3 ≤ uname.length ∧ uname.length ≤ 30

instance (uname : String) : Decidable (validIg uname) := by
  unfold validIg; infer_instance

/-- The Instagram branch of the anchor loop (lines 181-197), the only branch
that performs a fetch (the "email in IG bio" bonus, lines 191-197; note the
fetch happens whenever a username is accepted, before the email condition is
tested). -/
def igStep (web : String → Option Page) (st : ContactResult × List String)
    (href : String) : ContactResult × List String :=
  let r := st.1
  if containsSub href "instagram.com" = true ∧ r.instagram_username = "" then
    match igUserOf href with
    | none => st
    | some g =>
      let uname := pyRstripSlash ((pySplit g "?").headD "")
      if validIg uname then
        let r1 := { r with instagram_username := uname,
                           instagram_url := "https://instagram.com/" ++ uname }
        let igu := r1.instagram_url
        let fetched := fetch_html web igu
        let tr := st.2 ++ [normFetchUrl igu]
        match fetched with
        | some pg =>
          if pg.raw ≠ "" ∧ r1.email = "" then
            match searchEmail pg.raw with
            | some m => ({ r1 with email := m, email_source := igu }, tr)
            | none => (r1, tr)
          else (r1, tr)
        | none => (r1, tr)
      else st
  else st

/-- TikTok branch (lines 200-207). -/
def ttStep (r : ContactResult) (href : String) : ContactResult :=
  if containsSub href "tiktok.com" = true ∧ r.tiktok_username = "" then
    match ttUserOf href with
    | none => r
    | some g =>
      let uname := (pySplit g "?").headD ""
      if 1 ≤ uname.length ∧ uname.length ≤ 40 then
        { r with tiktok_username := uname,
                 tiktok_url := "https://tiktok.com/@" ++ uname }
      else r
  else r

/-- WhatsApp branch (lines 210-215). -/
def waStep (r : ContactResult) (href : String) : ContactResult :=
  if (containsSub href "wa.me" = true ∨ containsSub href "api.whatsapp.com" = true) ∧
      r.whatsapp_number = "" then
    match waPhoneOf href.data with
    | none => r
    | some phone => { r with whatsapp_number := phone }
  else r

/-- Facebook branch (lines 218-222); `clean` is computed from the
original-case `url`. -/
def fbStep (r : ContactResult) (href url : String) : ContactResult :=
  if containsSub href "facebook.com" = true ∧ r.facebook_url = "" then
    let clean := pyRstripSlash ((pySplit ((pySplit url "?").headD "") "#").headD "")
    if 3 ≤ countChar clean '/' then { r with facebook_url := clean } else r
  else r

/-- LinkedIn branch (lines 225-229). -/
def liStep (r : ContactResult) (href url : String) : ContactResult :=
  if containsSub href "linkedin.com" = true ∧ r.linkedin_url = "" then
    if containsSub href "/in/" = true ∨ containsSub href "/company/" = true then
      { r with linkedin_url := pyRstripSlash ((pySplit url "?").headD "") }
    else r
  else r

/-- One iteration of `for a in soup.find_all("a", href=True)` (lines
176-229): `href = a["href"].lower().strip()`, `url = a["href"]`. -/
def anchorStep (web : String → Option Page) (st : ContactResult × List String)
    (a : String) : ContactResult × List String :=
  let href := pyStrip (pyLower a)
  let url := a
  let st := igStep web st href
  let st := (ttStep st.1 href, st.2)
  let st := (waStep st.1 href, st.2)
  let st := (fbStep st.1 href url, st.2)
  (liStep st.1 href url, st.2)

/-- Base-URL normalization of `smart_email_scrape` (lines 156-158). -/
def baseOf (website : String) : String :=
  let base := pyRstripSlash (pyStrip website)
  if startsWithStr base "http" = true then base
  else "https://" ++ pyReplace (pyReplace base "https://" "") "http://" ""

/-- `scraper.py`'s `smart_email_scrape`, returning the result dict together
with the trace of requested URLs.  (`if not website` / `if not html` are the
Python truthiness tests on a string.) -/
def smart_email_scrape (web : String → Option Page) (website : String) :
    ContactResult × List String :=
  if website = "" then (emptyContact, []) else
  let base := baseOf website
  let u := normFetchUrl base
  match web u with
  | none => (emptyContact, [u])
  | some pg =>
    if pg.raw = "" then (emptyContact, [u]) else
    -- "1. Email clásico": result["email"] is still "" here, so the
    -- `if email and not result["email"]` guard reduces to the match.
    let r0 :=
      match extract_email pg with
      | some e => { emptyContact with email := e, email_source := base }
      | none => emptyContact
    pg.anchors.foldl (anchorStep web) (r0, [u])

/-! ## Data models and deduplication

`scraper.py` lines 237-282 and `main.py` lines 9-58. -/

/-- `scraper.py`'s `Business` dataclass (lines 237-260).  Review and
coordinate fields never hold floats exactly representable here in the flows we
model; decimals are carried as exact rationals. -/
structure Business where
  name : String := ""
  address : String := ""
  domain : String := ""
  website : String := ""
  phone_number : String := ""
  category : String := ""
  location : String := ""
  reviews_count : Option Int := none
  reviews_average : Option Rat := none
  latitude : Option Rat := none
  longitude : Option Rat := none
  email : String := ""
  email_source : String := ""
  instagram_username : String := ""
  instagram_url : String := ""
  whatsapp_number : String := ""
  facebook_url : String := ""
  tiktok_username : String := ""
  tiktok_url : String := ""
  linkedin_url : String := ""
deriving DecidableEq

def emptyBusiness : Business := {}

/-- `Business.__hash__` (line 259) hashes the tuple
`(name, website, domain, phone_number)`; we embed the identity key as that
tuple itself (Python guarantees equal tuples hash equally). -/
def Business.key (b : Business) : String × String × String × String :=
  (b.name, b.website, b.domain, b.phone_number)

/-- `scraper.py`'s `BusinessList` (lines 263-279): insertion-ordered list of
accepted records plus the set of seen identity keys (the `date` field of the
dataclass is environment input, irrelevant to `add`). -/
structure BusinessList where
  businesses : List Business := []
  seen : List (String × String × String × String) := []
  date : String := ""
deriving DecidableEq

/-- `BusinessList.add` (lines 275-279). -/
def BusinessList.add (s : BusinessList) (b : Business) : BusinessList :=
  if b.key ∈ s.seen then s
  else { s with businesses := s.businesses ++ [b], seen := b.key :: s.seen }

def emptyBL : BusinessList := {}

/-- `main.py`'s `Business.__hash__` (lines 24-40): the key is `[name]` plus a
tagged entry for each non-empty contact field, in the order domain, website,
phone (Python `None` and `""` are both falsy; we use `""`). -/
def mainKey (b : Business) : List String :=
  [b.name] ++
    (if b.domain ≠ "" then ["domain:" ++ b.domain] else []) ++
    (if b.website ≠ "" then ["website:" ++ b.website] else []) ++
    (if b.phone_number ≠ "" then ["phone:" ++ b.phone_number] else [])

/-- `main.py`'s `BusinessList` (lines 42-58), named apart from the scraper
variant. -/
structure MainBusinessList where
  business_list : List Business := []
  seen_businesses : List (List String) := []
deriving DecidableEq

/-- `main.py`'s `BusinessList.add_business` (lines 53-58). -/
def MainBusinessList.add_business (s : MainBusinessList) (b : Business) :
    MainBusinessList :=
  if mainKey b ∈ s.seen_businesses then s
  else { s with business_list := s.business_list ++ [b],
                seen_businesses := mainKey b :: s.seen_businesses }

/-! ## The pipeline contact merge

`run_pipeline`, `scraper.py` lines 555-586: enrichment tasks are submitted
only for non-empty websites (`... for i, w in enumerate(websites) if w`),
results land in the index-addressed slot of their own task, and then *only*
the six listed keys are copied into the output frame:
`for key in ["email", "email_source", "instagram_username", "instagram_url",
"whatsapp_number", "facebook_url"]: df[key] = [contact_results[i].get(key, "")
...]`. -/

/-- `df[key] = contact_results[i].get(key, "")` for the six keys of the merge
loop (lines 576-578); a row whose slot stayed `{}` (no task submitted) is
`none`, and `.get` of a missing key yields `""`. -/
def applyContactColumns (b : Business) (c : Option ContactResult) : Business :=
  { b with
    email := (c.map (·.email)).getD ""
    email_source := (c.map (·.email_source)).getD ""
    instagram_username := (c.map (·.instagram_username)).getD ""
    instagram_url := (c.map (·.instagram_url)).getD ""
    whatsapp_number := (c.map (·.whatsapp_number)).getD ""
    facebook_url := (c.map (·.facebook_url)).getD "" }

/-- The fate of one row of the frame: a task is submitted iff the website is
non-empty (line 564); its result is merged by index. -/
def enrichRow (web : String → Option Page) (b : Business) : Business :=
  if b.website ≠ "" then
    applyContactColumns b (some (smart_email_scrape web b.website).1)
  else
    applyContactColumns b none

/-- The whole merge step of `run_pipeline` over the frame. -/
def pipelineEnrich (web : String → Option Page) (bs : List Business) :
    List Business :=
  bs.map (enrichRow web)

/-- The websites for which `run_pipeline` submits an enrichment task
(line 562-565). -/
def enrichTasks (bs : List Business) : List String :=
  (bs.map (·.website)).filter (fun w => w ≠ "")

/-! ## Review-field parsing

`main.py` lines 229-243. -/

/-- Values a Python int-ish field can end up holding in `main.py`:
a number, the empty string (the `else` branches assign `""`), or `None`
(the dataclass default, also what `scraper.py` leaves in place). -/
inductive PyIntField where
  | num (n : Nat)
  | emptyStr
  | pyNone
deriving DecidableEq

/-- A parsed decimal, exactly: `num m k` stands for m / 10^k. -/
inductive PyFloatField where
  | num (mantissa : Nat) (scale : Nat)
  | emptyStr
  | pyNone
deriving DecidableEq

/-- `count_text = ...inner_text().split()[0].replace(',', '').strip()`. -/
def cleanCount (tok : String) : String := pyStrip (pyReplace tok "," "")

/-- `reviews_count` assignment (lines 229-233): `int(count_text) if
count_text.isdigit() else 0`, `""` when the element is missing; `none` models
the `IndexError` of `split()[0]` on empty text (the listing is then dropped by
the outer handler). -/
def parseCountEmb (present : Bool) (innerText : String) : Option PyIntField :=
  if present then
    match pySplitWs innerText with
    | [] => none
    | t :: _ =>
      let ct := cleanCount t
      some (.num (if pyIsDigit ct then digitsToNat ct else 0))
  else some .emptyStr

/-- The filter of the `next(...)` generator (line 239):
`p.replace(',', '.').replace('.', '', 1).isdigit()`. -/
def avgCandidate (p : String) : Bool :=
  pyIsDigit (String.mk (removeFirstDot (pyReplace p "," ".").data))

/-- `float(number_str)` for a string of digits with at most one dot, exactly:
mantissa and number of fractional digits. -/
def pyFloatOf (s : String) : PyFloatField :=
  let ip := s.data.takeWhile (fun c => c ≠ '.')
  match s.data.dropWhile (fun c => c ≠ '.') with
  | '.' :: frac => .num (digitsToNat (String.mk (ip ++ frac))) frac.length
  | _ => .num (digitsToNat (String.mk ip)) 0

/-- `reviews_average` assignment (lines 235-243): the first whitespace token
of the aria-label that passes `avgCandidate` is parsed (after `,` → `.`);
otherwise the field keeps its `None` default; `""` when the element is
missing; a missing aria-label (`None`) also leaves the default. -/
def parseAvgEmb (present : Bool) (ariaLabel : Option String) : PyFloatField :=
  if present then
    match ariaLabel with
    | none => .pyNone
    | some lbl =>
      match (pySplitWs lbl).find? avgCandidate with
      | some p => pyFloatOf (pyReplace p "," ".")
      | none => .pyNone
  else .emptyStr

/-! ## Category/location split

`scraper.py` lines 517-520 and `main.py` lines 245-251. -/

/-- `scraper.py`: `if " in " in search.lower(): b.category, b.location =
[x.strip().title() for x in search.lower().split(" in ")]` — the tuple unpack
raises (listing skipped, `none`) unless the split has exactly two parts;
without the separator `b.category = search.title()` and `b.location` keeps its
`""` default (`none` here). -/
def scraperCatLoc (search : String) : Option (String × Option String) :=
  let ls := pyLower search
  if containsSub ls " in " = true then
    match (pySplit ls " in ").map (fun x => pyTitle (pyStrip x)) with
    | [c, l] => some (c, some l)
    | _ => none
  else some (pyTitle search, none)

/-- `main.py`: `clean_search = search_for.strip()`; split on `' in '`, take
`[0].strip()` and `[-1].strip()`; placeholder `"N/A"` without separator. -/
def mainCatLoc (search : String) : String × String :=
  let cs := pyStrip search
  if containsSub cs " in " = true then
    (pyStrip ((pySplit cs " in ").headD ""),
     pyStrip (((pySplit cs " in ").getLast?).getD ""))
  else (cs, "N/A")

/-! ## The discovery scroll loop

`main.py` lines 155-181: poll the anchor count after each scroll; stop when
the count reaches `total`, or when it equals the previous poll's count three
times in a row (`consecutive_same_count >= 3`); on any other count, record it
and reset the stagnation counter. -/

structure LoopState where
  i : Nat
  prev : Nat
  cons : Nat
deriving DecidableEq

structure LoopResult where
  count : Nat
  stag : Nat
  polls : Nat
deriving DecidableEq

/-- One iteration of the `while True` loop; `counts j` is the anchor count
observed at the j-th poll. -/
def loopStep (counts : Nat → Nat) (total : Nat) (s : LoopState) :
    Sum LoopResult LoopState :=
  let c := counts s.i
  if total ≤ c then .inl ⟨c, s.cons, s.i + 1⟩
  else if c = s.prev then
    if 3 ≤ s.cons + 1 then .inl ⟨c, s.cons + 1, s.i + 1⟩
    else .inr ⟨s.i + 1, s.prev, s.cons + 1⟩
  else .inr ⟨s.i + 1, c, 0⟩

/-- Run the loop for at most `fuel` polls; `none` means it was still running. -/
def loopRun (counts : Nat → Nat) (total : Nat) : Nat → LoopState → Option LoopResult
  | 0, _ => none
  | n + 1, s =>
    match loopStep counts total s with
    | .inl r => some r
    | .inr s' => loopRun counts total n s'

def loopStart : LoopState := ⟨0, 0, 0⟩

/-- The spec's synthetic count sequence [5, 10, 10, 10, ...]. -/
def demoCounts (i : Nat) : Nat := if i = 0 then 5 else 10

/-! ## Concrete inputs used by the counterexamples and witnesses -/

/-- Root page of a site with no email anywhere on it. -/
def rootPg : Page :=
  ⟨[], "Welcome to our site", "<html>Welcome to our site</html>"⟩

/-- The same site's `/contact` page, which does carry an email. -/
def contactPg : Page :=
  ⟨[], "Write to info@nomail.example today",
   "<html>Write to info@nomail.example today</html>"⟩

/-- A web where only the root and `/contact` of `nomail.example` resolve. -/
def demoWebC1 (u : String) : Option Page :=
  if u = "https://nomail.example" then some rootPg
  else if u = "https://nomail.example/contact" then some contactPg
  else none

/-- A page whose only anchor is a TikTok profile link. -/
def tikPg : Page :=
  ⟨["https://tiktok.com/@cooltok"], "hi", "<html>hi</html>"⟩

def demoWebTik (u : String) : Option Page :=
  if u = "https://biz.example" then some tikPg else none

def bizBusiness : Business := { name := "Biz", website := "biz.example" }

def demoNoSiteBusiness : Business := { name := "NoSite" }

/-! ## Deduplication theorems (C4, C5) -/

/-- Invariant carried through a run of `add`: accepted records have pairwise
distinct keys, and every accepted record's key has been recorded in `seen`. -/
def dedupInv (s : BusinessList) : Prop :=
  s.businesses.Pairwise (fun a b => a.key ≠ b.key) ∧
    ∀ a ∈ s.businesses, a.key ∈ s.seen

theorem dedupInv_add (s : BusinessList) (b : Business) (h : dedupInv s) :
    dedupInv (s.add b) := by
  obtain ⟨hp, hm⟩ := h
  unfold BusinessList.add
  split
  · exact ⟨hp, hm⟩
  · rename_i hnot
    constructor
    · simp only
      rw [List.pairwise_append]
      refine ⟨hp, List.pairwise_singleton _ _, ?_⟩
      intro a ha b' hb'
      rw [List.mem_singleton] at hb'
      subst hb'
      intro hk
      exact hnot (hk ▸ hm a ha)
    · intro a ha
      simp only [List.mem_append, List.mem_singleton] at ha
      rcases ha with ha | ha
      · exact List.mem_cons_of_mem _ (hm a ha)
      · subst ha
        exact List.mem_cons_self _ _

theorem dedupInv_foldl :
    ∀ (l : List Business) (s : BusinessList), dedupInv s →
      dedupInv (l.foldl BusinessList.add s)
  | [], _, h => h
  | b :: rest, s, h => dedupInv_foldl rest (s.add b) (dedupInv_add s b h)

theorem foldl_add_sublist :
    ∀ (l : List Business) (s : BusinessList),
      ∃ t, (l.foldl BusinessList.add s).businesses = s.businesses ++ t ∧
        t.Sublist l
  | [], s => ⟨[], by simp⟩
  | b :: rest, s => by
    obtain ⟨t, ht, hs⟩ := foldl_add_sublist rest (s.add b)
    rw [List.foldl_cons]
    by_cases h : b.key ∈ s.seen
    · have hadd : s.add b = s := by simp [BusinessList.add, h]
      exact ⟨t, by rw [ht, hadd], hs.cons b⟩
    · have hadd : (s.add b).businesses = s.businesses ++ [b] := by
        simp [BusinessList.add, h]
      exact ⟨b :: t, by rw [ht, hadd, List.append_assoc]; rfl, hs.cons₂ b⟩

/-- **C4**: when a business's identity key is already present in the store's
seen-set, `add` is a no-op — the accepted list and the seen set are both
unchanged — and hence a second `add` of the same business never admits it.
This holds for `scraper.py`'s `BusinessList.add` and for `main.py`'s
`BusinessList.add_business`. -/
theorem add_idempotent_per_key :
    (∀ (s : BusinessList) (b : Business), b.key ∈ s.seen → s.add b = s) ∧
    (∀ (s : BusinessList) (b : Business), (s.add b).add b = s.add b) ∧
    (∀ (t : MainBusinessList) (b : Business),
        mainKey b ∈ t.seen_businesses → t.add_business b = t) ∧
    (∀ (t : MainBusinessList) (b : Business),
        (t.add_business b).add_business b = t.add_business b) := by
  refine ⟨?_, ?_, ?_, ?_⟩
  · intro s b h
    simp [BusinessList.add, h]
  · intro s b
    by_cases h : b.key ∈ s.seen
    · simp [BusinessList.add, h]
    · simp [BusinessList.add, h]
  · intro t b h
    simp [MainBusinessList.add_business, h]
  · intro t b
    by_cases h : mainKey b ∈ t.seen_businesses
    · simp [MainBusinessList.add_business, h]
    · simp [MainBusinessList.add_business, h]

/-- **C4** witness: a concrete store already containing the key. -/
theorem add_idempotent_per_key_check :
    BusinessList.add ⟨[bizBusiness], [bizBusiness.key], ""⟩ bizBusiness =
      ⟨[bizBusiness], [bizBusiness.key], ""⟩ :=
  add_idempotent_per_key.1 ⟨[bizBusiness], [bizBusiness.key], ""⟩ bizBusiness
    (by decide)

/-- **C5**: after any sequence of `add` calls starting from the empty store,
the accepted businesses have pairwise distinct identity keys
(name, website, domain, phone), and the accepted list is a sublist of the
submission sequence — output ordering equals discovery order. -/
theorem dedup_store_invariant (l : List Business) :
    ((l.foldl BusinessList.add emptyBL).businesses).Pairwise
        (fun a b => a.key ≠ b.key) ∧
      ((l.foldl BusinessList.add emptyBL).businesses).Sublist l := by
  constructor
  · exact (dedupInv_foldl l emptyBL ⟨List.Pairwise.nil, by intro a ha; cases ha⟩).1
  · obtain ⟨t, ht, hs⟩ := foldl_add_sublist l emptyBL
    rw [ht]
    exact hs

/-! ## Discovery-loop theorems (C6) -/

theorem loopStep_inl {counts : Nat → Nat} {total : Nat} {s : LoopState}
    {r : LoopResult} (h : loopStep counts total s = .inl r) :
    total ≤ r.count ∨ (r.stag = s.cons + 1 ∧ 3 ≤ s.cons + 1) := by
  simp only [loopStep] at h
  by_cases hT : total ≤ counts s.i
  · rw [if_pos hT] at h
    cases h
    exact Or.inl hT
  · rw [if_neg hT] at h
    by_cases hp : counts s.i = s.prev
    · rw [if_pos hp] at h
      by_cases h3 : 3 ≤ s.cons + 1
      · rw [if_pos h3] at h
        cases h
        exact Or.inr ⟨rfl, h3⟩
      · rw [if_neg h3] at h
        cases h
    · rw [if_neg hp] at h
      cases h

theorem loopStep_inr {counts : Nat → Nat} {total : Nat} {s s' : LoopState}
    (h : loopStep counts total s = .inr s') :
    s'.i = s.i + 1 ∧ (s'.cons = 0 ∨ (s'.cons = s.cons + 1 ∧ s.cons + 1 < 3)) := by
  simp only [loopStep] at h
  by_cases hT : total ≤ counts s.i
  · rw [if_pos hT] at h
    cases h
  · rw [if_neg hT] at h
    by_cases hp : counts s.i = s.prev
    · rw [if_pos hp] at h
      by_cases h3 : 3 ≤ s.cons + 1
      · rw [if_pos h3] at h
        cases h
      · rw [if_neg h3] at h
        cases h
        exact ⟨rfl, Or.inr ⟨rfl, by omega⟩⟩
    · rw [if_neg hp] at h
      cases h
      exact ⟨rfl, Or.inl rfl⟩

theorem loopRun_stable (counts : Nat → Nat) (total N c : Nat)
    (H : ∀ i, N ≤ i → counts i = c) (s : LoopState) (hi : N ≤ s.i)
    (hc : s.cons ≤ 2) :
    ∃ r, loopRun counts total 4 s = some r ∧ (total ≤ r.count ∨ r.stag = 3) := by
  obtain ⟨i, prev, cons⟩ := s
  simp only at hi hc
  have h0 := H i hi
  have h1 := H (i + 1) (by omega)
  have h2 := H (i + 2) (by omega)
  have h3 := H (i + 3) (by omega)
  by_cases hT : total ≤ c
  · exact ⟨⟨c, cons, i + 1⟩, by simp [loopRun, loopStep, h0, hT], Or.inl hT⟩
  · by_cases hp : c = prev
    · subst hp
      interval_cases cons
      · exact ⟨⟨c, 3, i + 3⟩,
          by simp [loopRun, loopStep, h0, h1, h2, hT], Or.inr rfl⟩
      · exact ⟨⟨c, 3, i + 2⟩,
          by simp [loopRun, loopStep, h0, h1, hT], Or.inr rfl⟩
      · exact ⟨⟨c, 3, i + 1⟩,
          by simp [loopRun, loopStep, h0, hT], Or.inr rfl⟩
    · exact ⟨⟨c, 3, i + 4⟩,
        by simp [loopRun, loopStep, h0, h1, h2, h3, hT, hp], Or.inr rfl⟩

theorem loopRun_reaches (counts : Nat → Nat) (total N c : Nat)
    (H : ∀ i, N ≤ i → counts i = c) :
    ∀ (k : Nat) (s : LoopState), N ≤ s.i + k → s.cons ≤ 2 →
      ∃ r, loopRun counts total (k + 4) s = some r ∧
        (total ≤ r.count ∨ r.stag = 3) := by
  intro k
  induction k with
  | zero =>
    intro s h hc
    exact loopRun_stable counts total N c H s (by omega) hc
  | succ m ih =>
    intro s h hc
    have hfuel : m + 1 + 4 = (m + 4) + 1 := by omega
    rw [hfuel]
    cases hs : loopStep counts total s with
    | inl r =>
      refine ⟨r, ?_, ?_⟩
      · unfold loopRun
        rw [hs]
      · rcases loopStep_inl hs with hr | ⟨hr, hr3⟩
        · exact Or.inl hr
        · exact Or.inr (by omega)
    | inr s' =>
      obtain ⟨hi', hcons'⟩ := loopStep_inr hs
      obtain ⟨r, hr, hp⟩ := ih s' (by omega) (by omega)
      refine ⟨r, ?_, hp⟩
      unfold loopRun
      rw [hs]
      exact hr

/-- **C6**: the discovery scroll loop of `main.py` terminates on every
eventually-constant count sequence — within `N + 4` polls it stops, either
because the count reached the target or after exactly 3 consecutive polls
with an unchanged count — and on the synthetic sequence [5, 10, 10, 10, ...]
with target 20 it stops at count 10 with the stagnation counter at 3 on the
5th poll. -/
theorem discovery_loop_terminates :
    (∀ (counts : Nat → Nat) (total N c : Nat),
        (∀ i, N ≤ i → counts i = c) →
        ∃ r, loopRun counts total (N + 4) loopStart = some r ∧
          (total ≤ r.count ∨ r.stag = 3)) ∧
    loopRun demoCounts 20 5 loopStart = some ⟨10, 3, 5⟩ := by
  constructor
  · intro counts total N c H
    exact loopRun_reaches counts total N c H N loopStart (by simp [loopStart])
      (by simp [loopStart])
  · decide

/-- **C6** witness: the general part applied to the synthetic sequence,
constant (at 10) from the second poll on, with target 20. -/
theorem discovery_loop_terminates_check :
    ∃ r, loopRun demoCounts 20 (1 + 4) loopStart = some r ∧
      (20 ≤ r.count ∨ r.stag = 3) :=
  discovery_loop_terminates.1 demoCounts 20 1 10 (fun i hi => by
    have h : i ≠ 0 := by omega
    simp [demoCounts, h])

/-! ## URL-normalization theorems (C2) -/

theorem isPrefixOf_append_self (l t : List Char) : l.isPrefixOf (l ++ t) = true := by
  induction l with
  | nil => simp [List.isPrefixOf]
  | cons c cs ih => simp [List.isPrefixOf, ih]

theorem strDataAppend (a b : String) : (a ++ b).data = a.data ++ b.data := rfl

theorem startsWith_append_self (s t : String) : startsWithStr (s ++ t) s = true := by
  unfold startsWithStr
  rw [strDataAppend]
  exact isPrefixOf_append_self s.data t.data

/-- **C2** counterexample: `scraper.py`'s `fetch_html` normalizes the
scheme-less URL `shop.example.com` to `https://op.example.com` — the
`lstrip("https:/")` strips the leading `s` and `h` of the host — not to
`https://shop.example.com` as the claim states. -/
theorem fetch_normalization_mangles :
    normFetchUrl "shop.example.com" = "https://op.example.com" ∧
      ¬normFetchUrl "shop.example.com" = "https://" ++ "shop.example.com" := by
  decide

/-- **C2** amended: `mail_scraper.py`'s `fetch_html` prepends the scheme only
(requested URL is `https://` + the original string unchanged); `scraper.py`'s
`fetch_html` first strips every leading character drawn from the set
`{h,t,p,s,:,/}`, so its requested URL is `https://` + the original string only
when the first character of the URL lies outside that set. -/
theorem fetch_normalization_amended :
    (∀ url : String, startsWithStr url "http" = false →
        msNormUrl url = "https://" ++ url) ∧
    (∀ (c : Char) (cs : List Char),
        startsWithStr (String.mk (c :: cs)) "http" = false →
        ("https:/".data.contains c) = false →
        normFetchUrl (String.mk (c :: cs)) = "https://" ++ String.mk (c :: cs)) := by
  constructor
  · intro url h
    simp [msNormUrl, h]
  · intro c cs h1 h2
    have hcond : ¬(("https:/".data.contains c) = true) := by
      rw [h2]
      decide
    unfold normFetchUrl
    rw [if_pos (Or.inr h1)]
    unfold pyLstripSet
    simp only [List.dropWhile_cons]
    rw [if_neg hcond]

/-- **C2** witness: a URL whose first character is outside the stripped set
is requested unchanged by both fetchers. -/
theorem fetch_normalization_amended_check :
    msNormUrl "example.com" = "https://" ++ "example.com" ∧
      normFetchUrl (String.mk ('e' :: "xample.com".data)) =
        "https://" ++ String.mk ('e' :: "xample.com".data) :=
  ⟨fetch_normalization_amended.1 "example.com" (by decide),
   fetch_normalization_amended.2 'e' "xample.com".data (by decide) (by decide)⟩

/-! ## Category/location-split theorems (C7) -/

/-- **C7** counterexample: on the spec's own example query
`"cafes in Barcelona"`, `scraper.py` emits category `"Cafes"` (the query is
lowercased and both parts are title-cased), not the text left of the
separator, `"cafes"`. -/
theorem category_split_titlecased :
    scraperCatLoc "cafes in Barcelona" = some ("Cafes", some "Barcelona") ∧
      ("Cafes" : String) ≠ "cafes" := by
  decide

/-- **C7** amended: `main.py`'s extractor matches the claim on the spec's
examples (category = stripped text left of the separator, location = stripped
text right of it, `"N/A"` placeholder without a separator — and in general
(query, "N/A") whenever the stripped query has no `" in "`); `scraper.py`'s
variant lowercases the query and title-cases both parts (category `"Cafes"`,
location `"Barcelona"`), and without a separator emits the title-cased whole
query with no location. -/
theorem category_split_amended :
    mainCatLoc "cafes in Barcelona" = ("cafes", "Barcelona") ∧
    mainCatLoc "bakeries" = ("bakeries", "N/A") ∧
    scraperCatLoc "cafes in Barcelona" = some ("Cafes", some "Barcelona") ∧
    scraperCatLoc "bakeries" = some ("Bakeries", none) ∧
    (∀ q, containsSub (pyStrip q) " in " = false →
        mainCatLoc q = (pyStrip q, "N/A")) ∧
    (∀ q, containsSub (pyLower q) " in " = false →
        scraperCatLoc q = some (pyTitle q, none)) := by
  refine ⟨by decide, by decide, by decide, by decide, ?_, ?_⟩
  · intro q h
    simp [mainCatLoc, h]
  · intro q h
    simp [scraperCatLoc, h]

/-- **C7** witness: the separator-free branches applied to a concrete query. -/
theorem category_split_amended_check :
    mainCatLoc "tapas bars" = (pyStrip "tapas bars", "N/A") ∧
      scraperCatLoc "tapas bars" = some (pyTitle "tapas bars", none) :=
  ⟨category_split_amended.2.2.2.2.1 "tapas bars" (by decide),
   category_split_amended.2.2.2.2.2 "tapas bars" (by decide)⟩

/-! ## Review-parsing theorems (C8) -/

/-- **C8** counterexample: in `main.py`, an unparsable review-count text is
stored as the default `0`, not as an absent value, and a review average is
not range-checked — aria-label `"9,9 stars"` is stored as 9.9 > 5.0. -/
theorem review_parse_defaults :
    parseCountEmb true "No reviews" = some (.num 0) ∧
      (PyIntField.num 0 ≠ PyIntField.pyNone) ∧
      parseAvgEmb true (some "9,9 stars") = .num 99 1 ∧
      ¬(99 ≤ 5 * 10 ^ 1) := by
  decide

theorem pyFloatOf_shape (s : String) : ∃ m k : Nat, pyFloatOf s = .num m k := by
  unfold pyFloatOf
  split
  · exact ⟨_, _, rfl⟩
  · exact ⟨_, _, rfl⟩

/-- **C8** amended: the review count is always a non-negative integer or the
empty string when parsing runs (`0` — a default, not absence — whenever the
cleaned first token is non-numeric); the review average is absent whenever no
whitespace token of the aria-label parses, and otherwise is a non-negative
decimal with no upper bound imposed. -/
theorem review_parse_amended :
    (∀ (text t : String) (ts : List String), pySplitWs text = t :: ts →
        pyIsDigit (cleanCount t) = false →
        parseCountEmb true text = some (.num 0)) ∧
    (∀ (present : Bool) (text : String) (v : PyIntField),
        parseCountEmb present text = some v →
        v = .emptyStr ∨ ∃ n : Nat, v = .num n) ∧
    (∀ lbl : String, (pySplitWs lbl).find? avgCandidate = none →
        parseAvgEmb true (some lbl) = .pyNone) ∧
    (∀ (lbl p : String), (pySplitWs lbl).find? avgCandidate = some p →
        parseAvgEmb true (some lbl) = pyFloatOf (pyReplace p "," ".") ∧
          ∃ m k : Nat, pyFloatOf (pyReplace p "," ".") = .num m k) := by
  refine ⟨?_, ?_, ?_, ?_⟩
  · intro text t ts hsplit hdig
    simp [parseCountEmb, hsplit, hdig]
  · intro present text v h
    cases present with
    | false =>
      simp [parseCountEmb] at h
      exact Or.inl h.symm
    | true =>
      simp [parseCountEmb] at h
      cases hsplit : pySplitWs text with
      | nil =>
        rw [hsplit] at h
        cases h
      | cons t ts =>
        rw [hsplit] at h
        injection h with h'
        exact Or.inr ⟨_, h'.symm⟩
  · intro lbl h
    simp [parseAvgEmb, h]
  · intro lbl p h
    exact ⟨by simp [parseAvgEmb, h], pyFloatOf_shape _⟩

/-- **C8** witness: the amended statements applied to a non-numeric count
text, to an aria-label with no parsable token, and to one with a parsable
token. -/
theorem review_parse_amended_check :
    parseCountEmb true "No reviews" = some (.num 0) ∧
      parseAvgEmb true (some "nice place") = .pyNone ∧
      parseAvgEmb true (some "4.5 stars") = pyFloatOf (pyReplace "4.5" "," ".") :=
  ⟨review_parse_amended.1 "No reviews" "No" ["reviews"] (by decide) (by decide),
   review_parse_amended.2.2.1 "nice place" (by decide),
   (review_parse_amended.2.2.2 "4.5 stars" "4.5" (by decide)).1⟩

/-! ## Email-priority theorems (C9) -/

theorem mailtoScan_cons (a : String) (rest : List String) (text : String) :
    mailtoScan (a :: rest) text =
      if startsWithStr (pyLower a) "mailto:" = true then
        if (searchEmail (mailtoCandidate a)).isSome = true then
          some (mailtoCandidate a)
        else mailtoScan rest text
      else mailtoScan rest text := rfl

theorem msMailtoScan_cons (a : String) (rest : List String) (text : String) :
    msMailtoScan (a :: rest) text =
      if containsSub (pyLower a) "mailto:" = true then some (msCandidate a)
      else msMailtoScan rest text := rfl

/-- **C9** counterexample: a page whose mail-link target (`mailto:info`) is
not email-shaped and whose visible text holds an email-shaped token — the
scan returns the text match, not the mail-link's address. -/
theorem mailto_priority_text_wins :
    extract_email ⟨["mailto:info"], "reach us: team@site.com", ""⟩ =
        some "team@site.com" ∧
      searchEmail "reach us: team@site.com" = some "team@site.com" ∧
      ("team@site.com" : String) ≠ "info" := by
  decide

/-- **C9** amended: in `scraper.py`'s `extract_email`, a mail-link wins over
the text scan exactly when its (lowercased, query-stripped) target itself
passes the email regex: if any anchor qualifies, the result is the *first*
qualifying mail-link's address — every anchor before the winner fails to
qualify — and the visible text is never consulted.  In `mail_scraper.py`'s
`extract_email_from_html`, the winner is the *first* anchor whose lowered
href merely contains `mailto:`, unconditionally. -/
theorem mailto_priority_amended :
    (∀ (anchors : List String) (text text' : String),
        (∃ a ∈ anchors, mailtoHit a) →
        (∃ (pre post : List String) (a : String),
            anchors = pre ++ a :: post ∧ (∀ x ∈ pre, ¬mailtoHit x) ∧
              mailtoHit a ∧
              mailtoScan anchors text = some (mailtoCandidate a)) ∧
          mailtoScan anchors text = mailtoScan anchors text') ∧
    (∀ (anchors : List String) (text : String),
        (∃ a ∈ anchors, containsSub (pyLower a) "mailto:" = true) →
        ∃ (pre post : List String) (a : String),
          anchors = pre ++ a :: post ∧
            (∀ x ∈ pre, containsSub (pyLower x) "mailto:" = false) ∧
            containsSub (pyLower a) "mailto:" = true ∧
            msMailtoScan anchors text = some (msCandidate a)) := by
  constructor
  · intro anchors
    induction anchors with
    | nil =>
      intro text text' h
      obtain ⟨a, ha, _⟩ := h
      cases ha
    | cons a rest ih =>
      intro text text' h
      by_cases h1 : startsWithStr (pyLower a) "mailto:" = true
      · by_cases h2 : (searchEmail (mailtoCandidate a)).isSome = true
        · refine ⟨⟨[], rest, a, rfl, ?_, ⟨h1, h2⟩, ?_⟩, ?_⟩
          · intro x hx
            cases hx
          · rw [mailtoScan_cons, if_pos h1, if_pos h2]
          · rw [mailtoScan_cons, if_pos h1, if_pos h2,
              mailtoScan_cons, if_pos h1, if_pos h2]
        · have hna : ¬mailtoHit a := fun hh => h2 hh.2
          have hrest : ∃ x ∈ rest, mailtoHit x := by
            obtain ⟨x, hx, hhit⟩ := h
            rcases List.mem_cons.mp hx with rfl | hx'
            · exact absurd hhit hna
            · exact ⟨x, hx', hhit⟩
          obtain ⟨⟨pre, post, x, hdec, hpre, hhit, hscan⟩, hind⟩ :=
            ih text text' hrest
          refine ⟨⟨a :: pre, post, x, ?_, ?_, hhit, ?_⟩, ?_⟩
          · rw [hdec, List.cons_append]
          · intro y hy
            rcases List.mem_cons.mp hy with rfl | hy'
            · exact hna
            · exact hpre y hy'
          · rw [mailtoScan_cons, if_pos h1, if_neg h2]
            exact hscan
          · rw [mailtoScan_cons, if_pos h1, if_neg h2,
              mailtoScan_cons, if_pos h1, if_neg h2]
            exact hind
      · have hna : ¬mailtoHit a := fun hh => h1 hh.1
        have hrest : ∃ x ∈ rest, mailtoHit x := by
          obtain ⟨x, hx, hhit⟩ := h
          rcases List.mem_cons.mp hx with rfl | hx'
          · exact absurd hhit hna
          · exact ⟨x, hx', hhit⟩
        obtain ⟨⟨pre, post, x, hdec, hpre, hhit, hscan⟩, hind⟩ :=
          ih text text' hrest
        refine ⟨⟨a :: pre, post, x, ?_, ?_, hhit, ?_⟩, ?_⟩
        · rw [hdec, List.cons_append]
        · intro y hy
          rcases List.mem_cons.mp hy with rfl | hy'
          · exact hna
          · exact hpre y hy'
        · rw [mailtoScan_cons, if_neg h1]
          exact hscan
        · rw [mailtoScan_cons, if_neg h1, mailtoScan_cons, if_neg h1]
          exact hind
  · intro anchors
    induction anchors with
    | nil =>
      intro text h
      obtain ⟨a, ha, _⟩ := h
      cases ha
    | cons a rest ih =>
      intro text h
      by_cases h1 : containsSub (pyLower a) "mailto:" = true
      · refine ⟨[], rest, a, rfl, ?_, h1, ?_⟩
        · intro x hx
          cases hx
        · rw [msMailtoScan_cons, if_pos h1]
      · have h1f : containsSub (pyLower a) "mailto:" = false := by
          cases hb : containsSub (pyLower a) "mailto:"
          · rfl
          · exact absurd hb h1
        have hrest : ∃ x ∈ rest, containsSub (pyLower x) "mailto:" = true := by
          obtain ⟨x, hx, hc⟩ := h
          rcases List.mem_cons.mp hx with rfl | hx'
          · exact absurd hc h1
          · exact ⟨x, hx', hc⟩
        obtain ⟨pre, post, x, hdec, hpre, hhit, hscan⟩ := ih text hrest
        refine ⟨a :: pre, post, x, ?_, ?_, hhit, ?_⟩
        · rw [hdec, List.cons_append]
        · intro y hy
          rcases List.mem_cons.mp hy with rfl | hy'
          · exact h1f
          · exact hpre y hy'
        · rw [msMailtoScan_cons, if_neg h1]
          exact hscan

/-- **C9** witness: pages with *two* mail-links.  For `extract_email`, both
anchors qualify and the scan returns the first one's address
(`first@x.com`, not `second@y.com`), independently of the text; for
`extract_email_from_html`, the first anchor is not a mail-link and the scan
returns the second's address. -/
theorem mailto_priority_amended_check :
    ((∃ (pre post : List String) (a : String),
        (["mailto:first@x.com", "mailto:second@y.com"] : List String) =
            pre ++ a :: post ∧
          (∀ x ∈ pre, ¬mailtoHit x) ∧ mailtoHit a ∧
          mailtoScan ["mailto:first@x.com", "mailto:second@y.com"]
              "also z@q.net here" = some (mailtoCandidate a)) ∧
      mailtoScan ["mailto:first@x.com", "mailto:second@y.com"]
          "also z@q.net here" =
        mailtoScan ["mailto:first@x.com", "mailto:second@y.com"]
          "no email at all") ∧
      mailtoScan ["mailto:first@x.com", "mailto:second@y.com"]
          "also z@q.net here" = some "first@x.com" ∧
      (∃ (pre post : List String) (a : String),
        (["https://x.example/about", "mailto:contact@x.example"] : List String) =
            pre ++ a :: post ∧
          (∀ x ∈ pre, containsSub (pyLower x) "mailto:" = false) ∧
          containsSub (pyLower a) "mailto:" = true ∧
          msMailtoScan ["https://x.example/about", "mailto:contact@x.example"]
              "t" = some (msCandidate a)) :=
  ⟨mailto_priority_amended.1 ["mailto:first@x.com", "mailto:second@y.com"]
      "also z@q.net here" "no email at all"
      ⟨"mailto:first@x.com", by decide, by decide⟩,
   by decide,
   mailto_priority_amended.2 ["https://x.example/about", "mailto:contact@x.example"]
      "t" ⟨"mailto:contact@x.example", by decide, by decide⟩⟩

/-! ## Contact-enricher fetch-trace theorems (C1) -/

theorem strMkAppend (a b : List Char) :
    String.mk a ++ String.mk b = String.mk (a ++ b) := rfl

theorem startsWith_http_ig (x : String) :
    startsWithStr ("https://instagram.com/" ++ x) "http" = true := by
  unfold startsWithStr
  rw [strDataAppend]
  have hsplit : ("https://instagram.com/" : String).data =
      "http".data ++ "s://instagram.com/".data := by decide
  rw [hsplit, List.append_assoc]
  exact isPrefixOf_append_self _ _

theorem normFetchUrl_instagram (x : String) :
    normFetchUrl ("https://instagram.com/" ++ x) = "https://instagram.com/" ++ x := by
  have h1 := startsWith_http_ig x
  have h2 : ("https://instagram.com/" ++ x) ≠ "" := by
    intro h
    rw [h] at h1
    exact absurd h1 (by decide)
  unfold normFetchUrl
  rw [if_neg]
  intro hor
  rcases hor with h | h
  · exact h2 h
  · rw [h1] at h
    cases h

theorem igStep_trace (web : String → Option Page)
    (st : ContactResult × List String) (href : String) :
    (igStep web st href).2 = st.2 ∨
      ∃ u, (igStep web st href).2 =
        st.2 ++ [normFetchUrl ("https://instagram.com/" ++ u)] := by
  simp only [igStep]
  repeat'
    first
      | exact Or.inl rfl
      | exact Or.inr ⟨_, rfl⟩
      | split

theorem anchorStep_trace (web : String → Option Page)
    (st : ContactResult × List String) (a : String) :
    (anchorStep web st a).2 = (igStep web st (pyStrip (pyLower a))).2 := rfl

theorem foldl_anchorStep_trace (web : String → Option Page)
    (P : String → Prop)
    (hP : ∀ u, P (normFetchUrl ("https://instagram.com/" ++ u))) :
    ∀ (l : List String) (st : ContactResult × List String),
      (∀ u ∈ st.2, P u) → ∀ u ∈ (l.foldl (anchorStep web) st).2, P u
  | [], _, h => h
  | a :: rest, st, h => by
    rw [List.foldl_cons]
    apply foldl_anchorStep_trace web P hP rest
    intro u hu
    rw [anchorStep_trace] at hu
    rcases igStep_trace web st (pyStrip (pyLower a)) with he | ⟨x, he⟩
    · exact h u (he ▸ hu)
    · rw [he] at hu
      rcases List.mem_append.mp hu with hu | hu
      · exact h u hu
      · rw [List.mem_singleton] at hu
        subst hu
        exact hP x

/-- **C1** amended: `smart_email_scrape` never iterates the `EMAIL_PATHS`
candidate list — every URL it requests is either the normalized root URL of
the website or an Instagram profile URL discovered on the root page; in
particular an email reachable only under a non-root path such as `contact` is
never probed. -/
theorem smart_email_scrape_fetches_root_only
    (web : String → Option Page) (website u : String)
    (hu : u ∈ (smart_email_scrape web website).2) :
    u = normFetchUrl (baseOf website) ∨
      startsWithStr u "https://instagram.com/" = true := by
  simp only [smart_email_scrape] at hu
  by_cases hw : website = ""
  · rw [if_pos hw] at hu
    cases hu
  · rw [if_neg hw] at hu
    have hP : ∀ x, normFetchUrl ("https://instagram.com/" ++ x) =
        normFetchUrl (baseOf website) ∨
        startsWithStr (normFetchUrl ("https://instagram.com/" ++ x))
          "https://instagram.com/" = true := by
      intro x
      rw [normFetchUrl_instagram]
      exact Or.inr (startsWith_append_self _ _)
    split at hu
    · exact Or.inl (List.mem_singleton.mp hu)
    · split at hu
      · exact Or.inl (List.mem_singleton.mp hu)
      · exact foldl_anchorStep_trace web
          (fun v => v = normFetchUrl (baseOf website) ∨
            startsWithStr v "https://instagram.com/" = true)
          hP _ _ (fun v hv => Or.inl (List.mem_singleton.mp hv)) u hu

/-- **C1** witness: on the demo site, the only fetched URL is the normalized
root. -/
theorem smart_email_scrape_fetches_root_only_check :
    "https://nomail.example" ∈ (smart_email_scrape demoWebC1 "nomail.example").2 ∧
      ("https://nomail.example" = normFetchUrl (baseOf "nomail.example") ∨
        startsWithStr "https://nomail.example" "https://instagram.com/" = true) :=
  ⟨by decide,
   smart_email_scrape_fetches_root_only demoWebC1 "nomail.example"
     "https://nomail.example" (by decide)⟩

/-- **C1** counterexample: a website whose root page carries no email but
whose `contact` path does.  The enricher fetches only the root, returns no
email, and never requests the `contact` URL — contradicting the claim that
the path list is probed until an email is found. -/
theorem smart_email_scrape_skips_paths :
    (smart_email_scrape demoWebC1 "nomail.example").1.email = "" ∧
      (smart_email_scrape demoWebC1 "nomail.example").2 =
        ["https://nomail.example"] ∧
      extract_email contactPg = some "info@nomail.example" ∧
      "contact" ∈ EMAIL_PATHS := by
  decide

/-! ## Pipeline contact-merge theorems (C3, C10) -/

/-- **C3**: the enricher finds the TikTok handle of the demo business's
website, but `run_pipeline`'s merge loop copies only six contact keys, so the
final row's `tiktok_username`, `tiktok_url` (and `linkedin_url`) columns do
not carry the enricher's values — contradicting the spec's "merged back in
full"; the code's own comment (`# Aplicar todos los datos al DataFrame`) and
the enricher's docstring promise all the data, so this is a slip in the merge
loop. -/
theorem contact_merge_drops_new_fields :
    (smart_email_scrape demoWebTik "biz.example").1.tiktok_username = "cooltok" ∧
      (smart_email_scrape demoWebTik "biz.example").1.tiktok_url =
        "https://tiktok.com/@cooltok" ∧
      ((pipelineEnrich demoWebTik [bizBusiness]).headD emptyBusiness).tiktok_username
          = "" ∧
      ((pipelineEnrich demoWebTik [bizBusiness]).headD emptyBusiness).tiktok_url
          = "" ∧
      ((pipelineEnrich demoWebTik [bizBusiness]).headD emptyBusiness).linkedin_url
          = "" := by
  decide

/-- **C10**: enrichment of an empty website returns the all-absent
`ContactResult` immediately with no fetch performed (empty trace);
`run_pipeline` submits no task for an empty website; and a row with an empty
website gets empty contact columns while its remaining fields are kept. -/
theorem empty_website_no_enrichment :
    (∀ web, smart_email_scrape web "" = (emptyContact, [])) ∧
    (∀ bs : List Business, "" ∉ enrichTasks bs) ∧
    (∀ (web : String → Option Page) (b : Business), b.website = "" →
        enrichRow web b =
          { b with
            email := ""
            email_source := ""
            instagram_username := ""
            instagram_url := ""
            whatsapp_number := ""
            facebook_url := "" }) := by
  refine ⟨?_, ?_, ?_⟩
  · intro web
    rfl
  · intro bs h
    simp only [enrichTasks, List.mem_filter] at h
    exact absurd h.2 (by decide)
  · intro web b hb
    unfold enrichRow
    rw [if_neg (by simp [hb])]
    rfl

/-- **C10** witness: the three parts applied to concrete inputs. -/
theorem empty_website_no_enrichment_check :
    smart_email_scrape demoWebTik "" = (emptyContact, []) ∧
      "" ∉ enrichTasks [bizBusiness] ∧
      enrichRow demoWebTik demoNoSiteBusiness =
        { demoNoSiteBusiness with
          email := ""
          email_source := ""
          instagram_username := ""
          instagram_url := ""
          whatsapp_number := ""
          facebook_url := "" } :=
  ⟨empty_website_no_enrichment.1 demoWebTik,
   empty_website_no_enrichment.2.1 [bizBusiness],
   empty_website_no_enrichment.2.2 demoWebTik demoNoSiteBusiness rfl⟩
